import Mathlib

/-!
# Verification of the `capture` package

A shallow embedding of the Go package `capture` (files `capture.go`,
`capture_test.go`), which captures the stdout/stderr output produced
while a supplied function runs, returning the output of each stream as
a list of lines together with a joined error.

Texts (Go strings / byte buffers) are modelled as lists of characters.
The two process-wide stream handles are modelled as an explicit record
that the orchestrator threads through its steps, and the side-effecting
steps of `Output` additionally emit an event trace so that ordering
properties (restore order, close-before-wait) can be stated.
-/

namespace Capture

/-- A Go string (byte buffer) modelled as a list of characters. -/
abbrev GoStr := List Char

/-- Go error values, as built by this package: `errors.New` sentinels
(distinguished by an id), `fmt.Errorf("%w: %w", outer, inner)` wrappers,
and `errors.Join` aggregates. -/
inductive GoError where
  | base (id : Nat)
  | wrap (outer inner : GoError)
  | joined (errs : List GoError)

mutual

/-- Structural equality on error values (models value identity of the
same Go error value reappearing in a chain). -/
def GoError.beq : GoError → GoError → Bool
  | .base a, .base b => a == b
  | .wrap a b, .wrap c d => GoError.beq a c && GoError.beq b d
  | .joined es, .joined fs => GoError.beqList es fs
  | _, _ => false

/-- Element-wise equality of error lists. -/
def GoError.beqList : List GoError → List GoError → Bool
  | [], [] => true
  | e :: es, f :: fs => GoError.beq e f && GoError.beqList es fs
  | _, _ => false

end

mutual

/-- `errors.Is(e, t)`: `e` equals `t`, or `t` occurs in `e`'s unwrap
tree.  A `fmt.Errorf("%w: %w", a, b)` wrapper unwraps to both `a` and
`b`; an `errors.Join` value unwraps to all of its members. -/
def errIs : GoError → GoError → Bool
  | .base n, t => GoError.beq (.base n) t
  | .wrap a b, t => GoError.beq (.wrap a b) t || errIs a t || errIs b t
  | .joined es, t => GoError.beq (.joined es) t || errIsAny es t

/-- `errIs` over each member of a list. -/
def errIsAny : List GoError → GoError → Bool
  | [], _ => false
  | e :: es, t => errIs e t || errIsAny es t

end

/-- `errors.Is` lifted to nilable errors (`nil` is `none`). -/
def goIs : Option GoError → Option GoError → Bool
  | none, t => t.isNone
  | some _, none => false
  | some e, some t => errIs e t

/-- `errors.Join(errs...)`: drop the nil errors; if none remain the
result is nil, otherwise a single aggregate holding the survivors. -/
def goJoin (errs : List (Option GoError)) : Option GoError :=
  match errs.filterMap id with
  | [] => none
  | ne => some (.joined ne)

/-- Modelled from the spec: the distinguished sentinel reported when the
stdout copy fails (`ErrStdoutCapture`, declared outside the provided
sources; per the spec a distinct sentinel error value). -/
def ErrStdoutCapture : GoError := .base 0

/-- Modelled from the spec: the distinguished sentinel reported when the
stderr copy fails (`ErrStderrCapture`). -/
def ErrStderrCapture : GoError := .base 1

/-- Go `strings.Split(s, "\n")` specialised to the one-character
separator: the list of segments of `s` between occurrences of the
terminator.  Always non-empty; `[""]` for the empty string. -/
def splitGo : GoStr → List GoStr
  | [] => [[]]
  | c :: cs =>
    if c = '\n' then [] :: splitGo cs
    else
      match splitGo cs with
      | [] => [[c]]
      | l :: ls => (c :: l) :: ls

/-- The `strings` closure inside `Output`: split on the terminator;
return nil unless the split has more than one segment or its single
segment is non-empty; drop a trailing empty segment. -/
def stringsFn (s : GoStr) : Option (List GoStr) :=
  let l := splitGo s
  if l.length > 1 ∨ (l.length = 1 ∧ l.headD [] ≠ []) then
    some (if l.getLastD [] = [] then l.dropLast else l)
  else none

/-- Modelled from the spec: "if the final segment is empty (i.e., the
text ended with a terminator), drop that trailing empty segment". -/
def dropFinalEmpty (l : List GoStr) : List GoStr :=
  if l.getLast? = some [] then l.dropLast else l

/-- Joining segments back with the terminator (inverse of `splitGo`). -/
def joinNl : List GoStr → GoStr
  | [] => []
  | [l] => l
  | l :: ls => l ++ '\n' :: joinNl ls

theorem splitGo_ne_nil (s : GoStr) : splitGo s ≠ [] := by
  cases s with
  | nil => simp [splitGo]
  | cons c cs =>
    simp only [splitGo]
    split
    · simp
    · split
      · simp
      · simp

theorem joinNl_splitGo (s : GoStr) : joinNl (splitGo s) = s := by
  induction s with
  | nil => rfl
  | cons c cs ih =>
    simp only [splitGo]
    split
    · rename_i hc
      subst hc
      rcases h : splitGo cs with _ | ⟨l, ls⟩
      · exact absurd h (splitGo_ne_nil cs)
      · rw [h] at ih
        simpa [joinNl] using ih
    · rcases h : splitGo cs with _ | ⟨l, ls⟩
      · exact absurd h (splitGo_ne_nil cs)
      · rw [h] at ih
        cases ls with
        | nil => simpa [joinNl] using ih
        | cons l2 ls2 => simpa [joinNl] using ih

theorem splitGo_no_nl (s : GoStr) : ∀ seg ∈ splitGo s, '\n' ∉ seg := by
  induction s with
  | nil =>
    intro seg hseg
    simp [splitGo] at hseg
    simp [hseg]
  | cons c cs ih =>
    intro seg hseg
    simp only [splitGo] at hseg
    by_cases hc : c = '\n'
    · rw [if_pos hc] at hseg
      rcases List.mem_cons.mp hseg with h | h
      · simp [h]
      · exact ih seg h
    · rw [if_neg hc] at hseg
      rcases h : splitGo cs with _ | ⟨l, ls⟩
      · exact absurd h (splitGo_ne_nil cs)
      · rw [h] at hseg
        rcases List.mem_cons.mp hseg with h2 | h2
        · subst h2
          intro hmem
          rcases List.mem_cons.mp hmem with h3 | h3
          · exact hc h3.symm
          · exact ih l (h ▸ List.mem_cons_self l ls) h3
        · exact ih seg (h ▸ List.mem_cons_of_mem l h2)

theorem splitGo_eq_single_empty_iff (s : GoStr) :
    splitGo s = [[]] ↔ s = [] := by
  constructor
  · intro h
    have := joinNl_splitGo s
    rw [h] at this
    simpa [joinNl] using this.symm
  · intro h
    subst h
    rfl

/-- The two captured streams. -/
inductive StreamId where
  | out
  | err
deriving DecidableEq

/-- Values a process stream handle (`*os.File`) can hold: an ordinary
file (the original destinations), an end of the pipe created for a
stream, or the nil handle (what `os.Pipe` yields on failure). -/
inductive Handle where
  | file (id : Nat)
  | pipeW (s : StreamId)
  | pipeR (s : StreamId)
  | nilH
deriving DecidableEq

/-- The two process-wide stream handles (`os.Stdout`, `os.Stderr`). -/
structure StreamState where
  stdout : Handle
  stderr : Handle
deriving DecidableEq

/-- What `os.Pipe()` returned: read end, write end, and the error that
`capture` assigns to the blank identifier. -/
structure PipeRet where
  r : Handle
  w : Handle
  e : Option GoError

/-- The state set up by `capture`'s body before it returns its two
closures: the recorded original handle value, the pipe ends, and the
fact that the drain goroutine has been started. -/
structure CaptureSession where
  og : Handle
  writeEnd : Handle
  readEnd : Handle
  drainStarted : Bool
deriving DecidableEq

/-- `capture`'s begin phase: `og := *t; r, w, _ := os.Pipe(); *t = w;
go drain(...)`. The error component of the pipe result is discarded;
the caller installs `writeEnd` into the handle slot. There is no error
component in the result. -/
def captureBegin (pr : PipeRet) (cur : Handle) : CaptureSession :=
  { og := cur, writeEnd := pr.w, readEnd := pr.r, drainStarted := true }

/-- A model of the injectable `copyFn` (`io.Copy` by default): given
the full byte stream readable from the pipe once its write end is
closed, yield the bytes it deposited into the buffer and the error it
returned. -/
def CopyFn := GoStr → GoStr × Option GoError

/-- The real `io.Copy`: deposits everything, no error. -/
def goCopy : CopyFn := fun s => (s, none)

/-- The drain goroutine body: `_, err := copyFn(&buf, r); c <- buf.String();
e <- err`.  Its one-shot handoff is the pair (buffer contents, error). -/
def drainTask (cp : CopyFn) (content : GoStr) : GoStr × Option GoError :=
  let r := cp content
  (r.1, r.2)

/-- Observable events of a capture session, for ordering properties. -/
inductive Event where
  | setSlot (s : StreamId) (h : Handle)
  | closeWrite (s : StreamId)
  | awaitDrain (s : StreamId)
deriving DecidableEq

/-- `capture`'s finish closure: `w.Close(); return <-c, <-e` — close
the write end, then receive the drain result.  Returns the received
pair and the ordered events it performed. -/
def finishOp (sid : StreamId) (cp : CopyFn) (content : GoStr) :
    (GoStr × Option GoError) × List Event :=
  (drainTask cp content, [Event.closeWrite sid, Event.awaitDrain sid])

/-- What `fn` does: the bytes it writes through the stdout handle, the
bytes it writes through the stderr handle, and the error it returns. -/
structure FnModel where
  outW : GoStr
  errW : GoStr
  ret : Option GoError

/-- The bytes that arrive at destination `h` while `fn` runs under
stream state `st`: writes through each handle go to wherever that
handle currently points. -/
def writtenTo (st : StreamState) (fn : FnModel) (h : Handle) : GoStr :=
  (if st.stdout = h then fn.outW else []) ++ (if st.stderr = h then fn.errW else [])

/-- The candidate error list built by `Output`: `errs := []error{fn()}`,
then the wrapped stdout-capture error if the stdout copy failed, then
the wrapped stderr-capture error if the stderr copy failed. -/
def outputErrs (fnErr outErr errErr : Option GoError) : List (Option GoError) :=
  let e1 := [fnErr]
  let e2 := match outErr with
    | some e => e1 ++ [some (.wrap ErrStdoutCapture e)]
    | none => e1
  match errErr with
    | some e => e2 ++ [some (.wrap ErrStderrCapture e)]
    | none => e2

/-- The triple returned by `Output`. -/
structure OutRes where
  stdoutLines : Option (List GoStr)
  stderrLines : Option (List GoStr)
  err : Option GoError

/-- The result of a run of `Output`: the returned triple, the stream
state after `Output` returns, and the trace of events in order. -/
structure RunResult where
  res : OutRes
  finalState : StreamState
  trace : List Event

/-- The orchestrator `Output`, step for step: begin interception on
stdout then stderr (deferring each restore), run `fn`, finish stdout
then stderr (discarding a stream's text when its copy failed, wrapping
its sentinel), split the retained texts into lines, join the errors,
and run the deferred restores in reverse order on return.  The copy
behaviour of each drain goroutine is a parameter (`copyFn` is
injectable and may act differently per call). -/
def runOutput (cpOut cpErr : CopyFn) (fn : FnModel) (st0 : StreamState) : RunResult :=
  -- restoreStdout, closeout := capture(&os.Stdout)
  let sesOut := captureBegin ⟨.pipeR .out, .pipeW .out, none⟩ st0.stdout
  let st1 : StreamState := { st0 with stdout := sesOut.writeEnd }
  -- restoreStderr, closeerr := capture(&os.Stderr)
  let sesErr := captureBegin ⟨.pipeR .err, .pipeW .err, none⟩ st1.stderr
  let st2 : StreamState := { st1 with stderr := sesErr.writeEnd }
  -- errs := []error{fn()}; fn's writes go to whatever the handles hold
  let fnErr := fn.ret
  -- stdout, err = closeout()
  let fOut := finishOp .out cpOut (writtenTo st2 fn (Handle.pipeW .out))
  let outTxt0 := fOut.1.1
  let outErr := fOut.1.2
  -- stderr, err = closeerr()
  let fErr := finishOp .err cpErr (writtenTo st2 fn (Handle.pipeW .err))
  let errTxt0 := fErr.1.1
  let errErr := fErr.1.2
  -- discard captured output of a stream whose copy failed
  let outTxt := match outErr with | some _ => [] | none => outTxt0
  let errTxt := match errErr with | some _ => [] | none => errTxt0
  -- deferred restores run LIFO: stderr first, then stdout
  let st3 : StreamState := { st2 with stderr := sesErr.og }
  let st4 : StreamState := { st3 with stdout := sesOut.og }
  { res := { stdoutLines := stringsFn outTxt
             stderrLines := stringsFn errTxt
             err := goJoin (outputErrs fnErr outErr errErr) }
    finalState := st4
    trace := [Event.setSlot .out sesOut.writeEnd, Event.setSlot .err sesErr.writeEnd]
             ++ fOut.2 ++ fErr.2
             ++ [Event.setSlot .err sesErr.og, Event.setSlot .out sesOut.og] }

/-- A trace deadlocks unless every wait on a drain task is preceded by
the close of that stream's pipe write end (the drain only finishes on
end-of-stream).  `closed` accumulates the streams whose write end has
been closed so far. -/
def traceOk : List Event → List StreamId → Bool
  | [], _ => true
  | Event.closeWrite s :: rest, closed => traceOk rest (s :: closed)
  | Event.awaitDrain s :: rest, closed => decide (s ∈ closed) && traceOk rest closed
  | Event.setSlot _ _ :: rest, closed => traceOk rest closed

theorem splitGo_single (s a : GoStr) (h : splitGo s = [a]) : a = s := by
  have hj := joinNl_splitGo s
  rw [h] at hj
  simpa [joinNl] using hj

theorem stringsFn_of_ne_nil (s : GoStr) (hs : s ≠ []) :
    stringsFn s = some (dropFinalEmpty (splitGo s)) := by
  have hnil := splitGo_ne_nil s
  obtain ⟨x, hx⟩ := Option.isSome_iff_exists.mp (List.getLast?_isSome.mpr hnil)
  have hcond : (splitGo s).length > 1 ∨
      ((splitGo s).length = 1 ∧ (splitGo s).headD [] ≠ []) := by
    rcases h : splitGo s with _ | ⟨a, l⟩
    · exact absurd h hnil
    · cases l with
      | nil =>
        have ha : a ≠ [] := by
          rw [splitGo_single s a h]
          exact hs
        right
        exact ⟨rfl, by simpa using ha⟩
      | cons b t =>
        left
        simp
  simp only [stringsFn, dropFinalEmpty]
  rw [if_pos hcond, List.getLastD_eq_getLast?, hx]
  by_cases hxe : x = []
  · simp [hxe]
  · simp [hxe]

theorem dropFinalEmpty_splitGo_ne_nil (s : GoStr) (hs : s ≠ []) :
    dropFinalEmpty (splitGo s) ≠ [] := by
  unfold dropFinalEmpty
  rcases h : splitGo s with _ | ⟨a, l⟩
  · exact absurd h (splitGo_ne_nil s)
  cases l with
  | nil =>
    have ha : a ≠ [] := by
      rw [splitGo_single s a h]
      exact hs
    simp [ha]
  | cons b t =>
    split
    · have : ((a :: b :: t).dropLast).length = t.length + 1 := by
        simp
      intro hc
      rw [hc] at this
      simp at this
    · simp

theorem stringsFn_ne_some_nil (s : GoStr) : stringsFn s ≠ some [] := by
  by_cases hs : s = []
  · subst hs
    decide
  · rw [stringsFn_of_ne_nil s hs]
    simpa using dropFinalEmpty_splitGo_ne_nil s hs

theorem splitGo_of_no_nl (s : GoStr) (h : '\n' ∉ s) : splitGo s = [s] := by
  induction s with
  | nil => rfl
  | cons c cs ih =>
    have hc : ¬(c = '\n') := fun hh => h (hh ▸ List.mem_cons_self c cs)
    have hcs : '\n' ∉ cs := fun hm => h (List.mem_cons_of_mem c hm)
    simp only [splitGo]
    rw [if_neg hc, ih hcs]

theorem stringsFn_single (s : GoStr) (hs : s ≠ []) (h : '\n' ∉ s) :
    stringsFn s = some [s] := by
  rw [stringsFn_of_ne_nil s hs]
  unfold dropFinalEmpty
  rw [splitGo_of_no_nl s h]
  simp [hs]

mutual

theorem GoError.beq_refl : ∀ e : GoError, GoError.beq e e = true
  | .base n => by simp [GoError.beq]
  | .wrap a b => by
    simp only [GoError.beq, Bool.and_eq_true]
    exact ⟨GoError.beq_refl a, GoError.beq_refl b⟩
  | .joined es => by
    simp only [GoError.beq]
    exact GoError.beqList_refl es

theorem GoError.beqList_refl : ∀ es : List GoError, GoError.beqList es es = true
  | [] => rfl
  | e :: es => by
    simp only [GoError.beqList, Bool.and_eq_true]
    exact ⟨GoError.beq_refl e, GoError.beqList_refl es⟩

end

theorem errIs_self (e : GoError) : errIs e e = true := by
  cases e with
  | base n => simp [errIs, GoError.beq_refl]
  | wrap a b => simp [errIs, GoError.beq_refl]
  | joined es => simp [errIs, GoError.beq_refl]

theorem errIs_wrap_left (a b t : GoError) (h : errIs a t = true) :
    errIs (.wrap a b) t = true := by
  simp [errIs, h]

theorem errIs_wrap_right (a b t : GoError) (h : errIs b t = true) :
    errIs (.wrap a b) t = true := by
  simp [errIs, h]

theorem errIsAny_of_mem (es : List GoError) (e t : GoError) (he : e ∈ es)
    (h : errIs e t = true) : errIsAny es t = true := by
  induction es with
  | nil => cases he
  | cons f fs ih =>
    rcases List.mem_cons.mp he with h1 | h1
    · subst h1
      simp [errIsAny, h]
    · simp [errIsAny, ih h1]

theorem errIs_joined_of_mem (es : List GoError) (e t : GoError) (he : e ∈ es)
    (h : errIs e t = true) : errIs (.joined es) t = true := by
  simp [errIs, errIsAny_of_mem es e t he h]

theorem goIs_goJoin_of_mem (errs : List (Option GoError)) (e t : GoError)
    (he : some e ∈ errs) (h : errIs e t = true) :
    goIs (goJoin errs) (some t) = true := by
  have hmem : e ∈ errs.filterMap id := List.mem_filterMap.mpr ⟨some e, he, rfl⟩
  unfold goJoin
  rcases hf : errs.filterMap id with _ | ⟨x, xs⟩
  · rw [hf] at hmem
    cases hmem
  · rw [hf] at hmem
    simpa [goIs] using errIs_joined_of_mem _ e t hmem h

theorem mem_outputErrs_fn (fe oe ee : Option GoError) : fe ∈ outputErrs fe oe ee := by
  unfold outputErrs
  cases oe <;> cases ee <;> simp

theorem mem_outputErrs_out (fe ee : Option GoError) (e : GoError) :
    some (.wrap ErrStdoutCapture e) ∈ outputErrs fe (some e) ee := by
  unfold outputErrs
  cases ee <;> simp

theorem mem_outputErrs_err (fe oe : Option GoError) (e : GoError) :
    some (.wrap ErrStderrCapture e) ∈ outputErrs fe oe (some e) := by
  unfold outputErrs
  cases oe <;> simp

theorem stringsFn_nil : stringsFn [] = none := by decide

theorem runOutput_res_stdout (cpO cpE : CopyFn) (fn : FnModel) (st : StreamState) :
    (runOutput cpO cpE fn st).res.stdoutLines
      = stringsFn (match (cpO fn.outW).2 with
          | some _ => []
          | none => (cpO fn.outW).1) := by
  simp [runOutput, finishOp, drainTask, captureBegin, writtenTo]

theorem runOutput_res_stderr (cpO cpE : CopyFn) (fn : FnModel) (st : StreamState) :
    (runOutput cpO cpE fn st).res.stderrLines
      = stringsFn (match (cpE fn.errW).2 with
          | some _ => []
          | none => (cpE fn.errW).1) := by
  simp [runOutput, finishOp, drainTask, captureBegin, writtenTo]

theorem runOutput_res_err (cpO cpE : CopyFn) (fn : FnModel) (st : StreamState) :
    (runOutput cpO cpE fn st).res.err
      = goJoin (outputErrs fn.ret (cpO fn.outW).2 (cpE fn.errW).2) := by
  simp [runOutput, finishOp, drainTask, captureBegin, writtenTo]

/-- C1: the line-splitting function returns absent for the empty text;
for every non-empty text it splits on the terminator (the segments join
back to the text and contain no terminator) and drops a trailing empty
segment; a stream that received zero bytes yields an absent sequence,
and a stream that received exactly one terminator yields a one-element
sequence containing the empty string. -/
theorem c1_line_splitting :
    stringsFn [] = none
    ∧ (∀ s : GoStr, s ≠ [] → stringsFn s = some (dropFinalEmpty (splitGo s)))
    ∧ (∀ s : GoStr, joinNl (splitGo s) = s)
    ∧ (∀ s : GoStr, ∀ seg ∈ splitGo s, '\n' ∉ seg)
    ∧ (∀ (fn : FnModel) (st : StreamState), fn.outW = [] →
        (runOutput goCopy goCopy fn st).res.stdoutLines = none)
    ∧ (∀ (fn : FnModel) (st : StreamState), fn.outW = ['\n'] →
        (runOutput goCopy goCopy fn st).res.stdoutLines = some [[]]) := by
  refine ⟨stringsFn_nil, stringsFn_of_ne_nil, joinNl_splitGo, splitGo_no_nl, ?_, ?_⟩
  · intro fn st h
    rw [runOutput_res_stdout]
    simp [goCopy, h, stringsFn_nil]
  · intro fn st h
    rw [runOutput_res_stdout]
    simp [goCopy, h]
    decide

/-- Witness for C1 at concrete inputs. -/
theorem c1_line_splitting_w :
    stringsFn ['a', '\n'] = some (dropFinalEmpty (splitGo ['a', '\n']))
    ∧ (runOutput goCopy goCopy ⟨[], [], none⟩ ⟨Handle.file 0, Handle.file 1⟩).res.stdoutLines
        = none
    ∧ (runOutput goCopy goCopy ⟨['\n'], [], none⟩ ⟨Handle.file 0, Handle.file 1⟩).res.stdoutLines
        = some [[]] :=
  ⟨c1_line_splitting.2.1 ['a', '\n'] (by decide),
   c1_line_splitting.2.2.2.2.1 ⟨[], [], none⟩ ⟨Handle.file 0, Handle.file 1⟩ rfl,
   c1_line_splitting.2.2.2.2.2 ⟨['\n'], [], none⟩ ⟨Handle.file 0, Handle.file 1⟩ rfl⟩

/-- C6: a captured text not ending in a terminator keeps its final
segment: a single terminator-free line yields a one-element sequence,
and the concrete scenario writing "to stderr (1)\n" then "to stderr (2)"
to stderr yields exactly those two lines. -/
theorem c6_no_trailing_terminator :
    (∀ s : GoStr, s ≠ [] → '\n' ∉ s → stringsFn s = some [s])
    ∧ (runOutput goCopy goCopy
        ⟨[], "to stderr (1)\n".toList ++ "to stderr (2)".toList, none⟩
        ⟨Handle.file 0, Handle.file 1⟩).res.stderrLines
      = some ["to stderr (1)".toList, "to stderr (2)".toList] := by
  refine ⟨stringsFn_single, ?_⟩
  rw [runOutput_res_stderr]
  decide

/-- Witness for C6 at a concrete input. -/
theorem c6_no_trailing_terminator_w :
    stringsFn ['a'] = some [['a']] :=
  c6_no_trailing_terminator.1 ['a'] (by decide) (by decide)

/-- C9: the line-splitting function returns nil or a non-empty list, so
`Output` never returns an empty non-nil sequence for either stream. -/
theorem c9_nil_or_nonempty :
    (∀ s : GoStr, stringsFn s = none ∨ ∃ l, stringsFn s = some l ∧ l ≠ [])
    ∧ (∀ (cpO cpE : CopyFn) (fn : FnModel) (st : StreamState),
        (runOutput cpO cpE fn st).res.stdoutLines ≠ some []
        ∧ (runOutput cpO cpE fn st).res.stderrLines ≠ some []) := by
  constructor
  · intro s
    by_cases hs : s = []
    · subst hs
      exact Or.inl stringsFn_nil
    · exact Or.inr ⟨dropFinalEmpty (splitGo s), stringsFn_of_ne_nil s hs,
        dropFinalEmpty_splitGo_ne_nil s hs⟩
  · intro cpO cpE fn st
    rw [runOutput_res_stdout, runOutput_res_stderr]
    exact ⟨stringsFn_ne_some_nil _, stringsFn_ne_some_nil _⟩

/-- C2: when the stdout copy fails, the returned stdout sequence is nil
regardless of what was written, the joined error matches the stdout
sentinel, its wrap of the underlying error, and the underlying error
itself, while stderr is unaffected when its own copy succeeds; and
symmetrically for stderr. -/
theorem c2_capture_failure_discards :
    ∀ (cpO cpE : CopyFn) (fn : FnModel) (st : StreamState),
      (∀ e : GoError, (cpO fn.outW).2 = some e →
        (runOutput cpO cpE fn st).res.stdoutLines = none
        ∧ goIs ((runOutput cpO cpE fn st).res.err) (some ErrStdoutCapture) = true
        ∧ goIs ((runOutput cpO cpE fn st).res.err)
            (some (GoError.wrap ErrStdoutCapture e)) = true
        ∧ goIs ((runOutput cpO cpE fn st).res.err) (some e) = true
        ∧ ((cpE fn.errW).2 = none →
            (runOutput cpO cpE fn st).res.stderrLines = stringsFn (cpE fn.errW).1))
      ∧ (∀ e : GoError, (cpE fn.errW).2 = some e →
        (runOutput cpO cpE fn st).res.stderrLines = none
        ∧ goIs ((runOutput cpO cpE fn st).res.err) (some ErrStderrCapture) = true
        ∧ goIs ((runOutput cpO cpE fn st).res.err)
            (some (GoError.wrap ErrStderrCapture e)) = true
        ∧ goIs ((runOutput cpO cpE fn st).res.err) (some e) = true
        ∧ ((cpO fn.outW).2 = none →
            (runOutput cpO cpE fn st).res.stdoutLines = stringsFn (cpO fn.outW).1)) := by
  intro cpO cpE fn st
  constructor
  · intro e he
    refine ⟨?_, ?_, ?_, ?_, ?_⟩
    · rw [runOutput_res_stdout, he]
      exact stringsFn_nil
    · rw [runOutput_res_err, he]
      exact goIs_goJoin_of_mem _ _ _ (mem_outputErrs_out _ _ e)
        (errIs_wrap_left _ _ _ (errIs_self _))
    · rw [runOutput_res_err, he]
      exact goIs_goJoin_of_mem _ _ _ (mem_outputErrs_out _ _ e) (errIs_self _)
    · rw [runOutput_res_err, he]
      exact goIs_goJoin_of_mem _ _ _ (mem_outputErrs_out _ _ e)
        (errIs_wrap_right _ _ _ (errIs_self _))
    · intro hok
      rw [runOutput_res_stderr, hok]
  · intro e he
    refine ⟨?_, ?_, ?_, ?_, ?_⟩
    · rw [runOutput_res_stderr, he]
      exact stringsFn_nil
    · rw [runOutput_res_err, he]
      exact goIs_goJoin_of_mem _ _ _ (mem_outputErrs_err _ _ e)
        (errIs_wrap_left _ _ _ (errIs_self _))
    · rw [runOutput_res_err, he]
      exact goIs_goJoin_of_mem _ _ _ (mem_outputErrs_err _ _ e) (errIs_self _)
    · rw [runOutput_res_err, he]
      exact goIs_goJoin_of_mem _ _ _ (mem_outputErrs_err _ _ e)
        (errIs_wrap_right _ _ _ (errIs_self _))
    · intro hok
      rw [runOutput_res_stdout, hok]

/-- Witness for C2 at concrete inputs: a copy that fails, in turn for
each stream, discards that stream's captured output. -/
theorem c2_capture_failure_discards_w :
    (runOutput (fun s => (s, some (GoError.base 3))) goCopy ⟨['x'], ['y'], none⟩
        ⟨Handle.file 0, Handle.file 1⟩).res.stdoutLines = none
    ∧ (runOutput goCopy (fun s => (s, some (GoError.base 3))) ⟨['x'], ['y'], none⟩
        ⟨Handle.file 0, Handle.file 1⟩).res.stderrLines = none :=
  ⟨((c2_capture_failure_discards (fun s => (s, some (GoError.base 3))) goCopy
      ⟨['x'], ['y'], none⟩ ⟨Handle.file 0, Handle.file 1⟩).1 (GoError.base 3) rfl).1,
   ((c2_capture_failure_discards goCopy (fun s => (s, some (GoError.base 3)))
      ⟨['x'], ['y'], none⟩ ⟨Handle.file 0, Handle.file 1⟩).2 (GoError.base 3) rfl).1⟩

/-- C3: the returned error is the join of the up-to-three non-nil
candidates (fn error, wrapped stdout-capture error, wrapped
stderr-capture error); if all are nil it is nil, and otherwise each
present candidate and the sentinel it wraps is testable by membership,
in every combination. -/
theorem c3_error_join :
    (∀ (cpO cpE : CopyFn) (fn : FnModel) (st : StreamState),
      (runOutput cpO cpE fn st).res.err
        = goJoin (outputErrs fn.ret (cpO fn.outW).2 (cpE fn.errW).2))
    ∧ (∀ fe oe ee : Option GoError,
        (fe = none → oe = none → ee = none → goJoin (outputErrs fe oe ee) = none)
        ∧ (∀ E, fe = some E →
            goIs (goJoin (outputErrs fe oe ee)) (some E) = true)
        ∧ (∀ e, oe = some e →
            goIs (goJoin (outputErrs fe oe ee)) (some ErrStdoutCapture) = true
            ∧ goIs (goJoin (outputErrs fe oe ee)) (some e) = true
            ∧ goIs (goJoin (outputErrs fe oe ee))
                (some (GoError.wrap ErrStdoutCapture e)) = true)
        ∧ (∀ e, ee = some e →
            goIs (goJoin (outputErrs fe oe ee)) (some ErrStderrCapture) = true
            ∧ goIs (goJoin (outputErrs fe oe ee)) (some e) = true
            ∧ goIs (goJoin (outputErrs fe oe ee))
                (some (GoError.wrap ErrStderrCapture e)) = true)) := by
  refine ⟨runOutput_res_err, ?_⟩
  intro fe oe ee
  refine ⟨?_, ?_, ?_, ?_⟩
  · intro h1 h2 h3
    subst h1
    subst h2
    subst h3
    rfl
  · intro E hE
    subst hE
    exact goIs_goJoin_of_mem _ _ _ (mem_outputErrs_fn _ _ _) (errIs_self _)
  · intro e he
    subst he
    exact ⟨goIs_goJoin_of_mem _ _ _ (mem_outputErrs_out _ _ e)
        (errIs_wrap_left _ _ _ (errIs_self _)),
      goIs_goJoin_of_mem _ _ _ (mem_outputErrs_out _ _ e)
        (errIs_wrap_right _ _ _ (errIs_self _)),
      goIs_goJoin_of_mem _ _ _ (mem_outputErrs_out _ _ e) (errIs_self _)⟩
  · intro e he
    subst he
    exact ⟨goIs_goJoin_of_mem _ _ _ (mem_outputErrs_err _ _ e)
        (errIs_wrap_left _ _ _ (errIs_self _)),
      goIs_goJoin_of_mem _ _ _ (mem_outputErrs_err _ _ e)
        (errIs_wrap_right _ _ _ (errIs_self _)),
      goIs_goJoin_of_mem _ _ _ (mem_outputErrs_err _ _ e) (errIs_self _)⟩

/-- Witness for C3 at concrete inputs: all-nil joins to nil, and each
of three present candidates is found by membership. -/
theorem c3_error_join_w :
    goJoin (outputErrs none none none) = none
    ∧ goIs (goJoin (outputErrs (some (GoError.base 7)) (some (GoError.base 8))
        (some (GoError.base 9)))) (some (GoError.base 7)) = true
    ∧ goIs (goJoin (outputErrs (some (GoError.base 7)) (some (GoError.base 8))
        (some (GoError.base 9)))) (some ErrStdoutCapture) = true
    ∧ goIs (goJoin (outputErrs (some (GoError.base 7)) (some (GoError.base 8))
        (some (GoError.base 9)))) (some ErrStderrCapture) = true :=
  ⟨(c3_error_join.2 none none none).1 rfl rfl rfl,
   (c3_error_join.2 (some (GoError.base 7)) (some (GoError.base 8))
      (some (GoError.base 9))).2.1 (GoError.base 7) rfl,
   ((c3_error_join.2 (some (GoError.base 7)) (some (GoError.base 8))
      (some (GoError.base 9))).2.2.1 (GoError.base 8) rfl).1,
   ((c3_error_join.2 (some (GoError.base 7)) (some (GoError.base 8))
      (some (GoError.base 9))).2.2.2 (GoError.base 9) rfl).1⟩

/-- C4: with no capture failure (the real copy), the joined error
matches the error returned by fn, and both line sequences are exactly
fn's writes split by the line-splitting rule. -/
theorem c4_error_passthrough :
    ∀ (fn : FnModel) (st : StreamState),
      (runOutput goCopy goCopy fn st).res.stdoutLines = stringsFn fn.outW
      ∧ (runOutput goCopy goCopy fn st).res.stderrLines = stringsFn fn.errW
      ∧ (∀ E : GoError, fn.ret = some E →
          goIs ((runOutput goCopy goCopy fn st).res.err) (some E) = true) := by
  intro fn st
  refine ⟨?_, ?_, ?_⟩
  · rw [runOutput_res_stdout]
    rfl
  · rw [runOutput_res_stderr]
    rfl
  · intro E hE
    rw [runOutput_res_err, hE]
    exact goIs_goJoin_of_mem _ _ _ (mem_outputErrs_fn _ _ _) (errIs_self _)

/-- Witness for C4 at a concrete input. -/
theorem c4_error_passthrough_w :
    goIs ((runOutput goCopy goCopy ⟨['x'], [], some (GoError.base 5)⟩
        ⟨Handle.file 0, Handle.file 1⟩).res.err) (some (GoError.base 5)) = true :=
  (c4_error_passthrough ⟨['x'], [], some (GoError.base 5)⟩
    ⟨Handle.file 0, Handle.file 1⟩).2.2 (GoError.base 5) rfl

/-- C5: whatever fn returns and whatever the copy functions do, both
stream handles hold their pre-call values when `Output` returns, and the
trace ends with the two deferred restores, stderr before stdout. -/
theorem c5_restoration :
    ∀ (cpO cpE : CopyFn) (fn : FnModel) (st : StreamState),
      (runOutput cpO cpE fn st).finalState = st
      ∧ (runOutput cpO cpE fn st).trace
        = [Event.setSlot .out (Handle.pipeW .out), Event.setSlot .err (Handle.pipeW .err),
           Event.closeWrite .out, Event.awaitDrain .out,
           Event.closeWrite .err, Event.awaitDrain .err]
          ++ [Event.setSlot .err st.stderr, Event.setSlot .out st.stdout] := by
  intro cpO cpE fn st
  exact ⟨rfl, rfl⟩

/-- C7: `finish` closes the pipe's write end strictly before waiting on
the drain result, and the whole `Output` trace never waits on a drain
whose write end is still open. -/
theorem c7_close_before_wait :
    (∀ (sid : StreamId) (cp : CopyFn) (content : GoStr),
      (finishOp sid cp content).2 = [Event.closeWrite sid, Event.awaitDrain sid])
    ∧ (∀ (cpO cpE : CopyFn) (fn : FnModel) (st : StreamState),
        traceOk ((runOutput cpO cpE fn st).trace) [] = true) := by
  refine ⟨fun _ _ _ => rfl, fun cpO cpE fn st => ?_⟩
  simp [runOutput, traceOk, finishOp, captureBegin]

/-- C8: `finish` returns the copy error together with whatever text the
copy deposited in the buffer; the partial text is not dropped at this
layer. -/
theorem c8_finish_keeps_buffer :
    (∀ (sid : StreamId) (cp : CopyFn) (content : GoStr),
      (finishOp sid cp content).1 = ((cp content).1, (cp content).2))
    ∧ (∀ (sid : StreamId) (cp : CopyFn) (content : GoStr) (e : GoError),
        (cp content).2 = some e →
          (finishOp sid cp content).1.1 = (cp content).1
          ∧ (finishOp sid cp content).1.2 = some e) := by
  exact ⟨fun _ _ _ => rfl, fun sid cp content e he => ⟨rfl, he⟩⟩

/-- Witness for C8 at a concrete failing copy. -/
theorem c8_finish_keeps_buffer_w :
    (finishOp StreamId.out (fun s => (s, some (GoError.base 3))) ['x']).1.1 = ['x']
    ∧ (finishOp StreamId.out (fun s => (s, some (GoError.base 3))) ['x']).1.2
        = some (GoError.base 3) :=
  c8_finish_keeps_buffer.2 StreamId.out (fun s => (s, some (GoError.base 3))) ['x']
    (GoError.base 3) rfl

/-- C10: `capture`'s begin phase ignores the pipe-creation error: its
result depends only on the pipe ends, it installs the returned (possibly
nil) write end, starts the drain, and reports no error. -/
theorem c10_begin_ignores_pipe_error :
    (∀ (pr pr2 : PipeRet) (slot : Handle), pr.r = pr2.r → pr.w = pr2.w →
      captureBegin pr slot = captureBegin pr2 slot)
    ∧ (∀ (pr : PipeRet) (slot : Handle),
        captureBegin pr slot
          = { og := slot, writeEnd := pr.w, readEnd := pr.r, drainStarted := true })
    ∧ (∀ (e : GoError) (slot : Handle),
        captureBegin ⟨Handle.nilH, Handle.nilH, some e⟩ slot
          = { og := slot, writeEnd := Handle.nilH, readEnd := Handle.nilH,
              drainStarted := true }) := by
  refine ⟨?_, fun _ _ => rfl, fun _ _ => rfl⟩
  intro pr pr2 slot h1 h2
  simp [captureBegin, h1, h2]

/-- Witness for C10: a failed pipe creation yields the same begin state
as a successful one with the same ends. -/
theorem c10_begin_ignores_pipe_error_w :
    captureBegin ⟨Handle.nilH, Handle.nilH, some (GoError.base 4)⟩ (Handle.file 0)
      = captureBegin ⟨Handle.nilH, Handle.nilH, none⟩ (Handle.file 0) :=
  c10_begin_ignores_pipe_error.1 ⟨Handle.nilH, Handle.nilH, some (GoError.base 4)⟩
    ⟨Handle.nilH, Handle.nilH, none⟩ (Handle.file 0) rfl rfl

end Capture
